import Mathlib

/-!
# Verification of the Jobly data-access layer (Company and Job models)

Shallow embedding of the dynamic query construction subsystem:
`Company.findAll` / `Job.findAll` filter-query builders, the partial-update
builder `sqlForPartialUpdate`, and the CRUD entity operations
(`create`, `get`, `update`, `remove`) of the two entity managers.

JavaScript values that flow through the builders are modelled by `JSVal`
(`undefined`, `null`, booleans, numbers, strings).  Database rows are
modelled by typed structures mirroring the table schemas; nullable columns
are `Option`s.  The store's execution of a generated SELECT is modelled
denotationally: each appended WHERE predicate is kept both as the exact SQL
string fragment the code produces and as an evaluable predicate on rows.
-/

/-- A JavaScript value as observed by the model layer. -/
inductive JSVal where
  | undefined
  | null
  | bool (b : Bool)
  | num (n : Int)
  | str (s : String)
deriving DecidableEq, Repr

/-- The two error kinds raised by the models (`BadRequestError`,
`NotFoundError` from expressError). -/
inductive JError where
  | badRequest (msg : String)
  | notFound (msg : String)
deriving DecidableEq, Repr

/-- A row of the `companies` table, with result-column aliases applied
(`num_employees AS "numEmployees"`, `logo_url AS "logoUrl"`);
`num_employees` and `logo_url` are nullable. -/
structure CompanyRow where
  handle : String
  name : String
  description : String
  numEmployees : Option Int
  logoUrl : Option String
deriving DecidableEq, Repr

/-- A row of the `jobs` table; `salary` and `equity` are nullable,
`equity` is a NUMERIC compared numerically by the store. -/
structure JobRow where
  id : Int
  title : String
  salary : Option Int
  equity : Option Rat
  companyHandle : String
deriving DecidableEq, Repr

/-! ## SQL LIKE / ILIKE semantics -/

/-- SQL LIKE pattern matching over character lists: `%` matches any
sequence, `_` any single character. -/
def likeMatch : List Char → List Char → Bool
  | [], [] => true
  | '%' :: ps, s =>
    likeMatch ps s ||
      (match s with
       | [] => false
       | _ :: s' => likeMatch ('%' :: ps) s')
  | '_' :: ps, _ :: s' => likeMatch ps s'
  | p :: ps, c :: s' => p == c && likeMatch ps s'
  | _, _ => false
termination_by ps s => (ps.length, s.length)

/-- Case-insensitive LIKE (`ILIKE`). -/
def iLike (pat s : String) : Bool :=
  likeMatch pat.toLower.toList s.toLower.toList

/-! ## Company.findAll filter-query builder -/

/-- The optional search filters accepted by `Company.findAll`
(`{minEmployees, maxEmployees, name}`); an absent key is `none`. -/
structure CompanyFilter where
  minEmployees : Option Int := none
  maxEmployees : Option Int := none
  name : Option String := none
deriving DecidableEq, Repr

/-- JS `minEmployees > maxEmployees`: comparison with `undefined` is
always false (NaN semantics), so the check only fires when both bounds
are present. -/
def optIntGt : Option Int → Option Int → Bool
  | some a, some b => decide (a > b)
  | _, _ => false

/-- One WHERE predicate appended by `Company.findAll`, recording the
positional-parameter index used in its placeholder. -/
inductive CompPred where
  | minEmp (i : Nat)
  | maxEmp (i : Nat)
  | nameILike (i : Nat)
deriving DecidableEq, Repr

/-- The exact SQL text of a company predicate, as pushed into
`whereExpressions`. -/
def CompPred.toSql : CompPred → String
  | .minEmp i => "num_employees >= $" ++ toString i
  | .maxEmp i => "num_employees <= $" ++ toString i
  | .nameILike i => "name ILIKE $" ++ toString i

/-- The initial query text of `Company.findAll` (the template literal in
the source, whitespace included). -/
def companyBaseQuery : String :=
  "SELECT handle,\n                  name,\n                  description,\n                  num_employees AS \"numEmployees\",\n                  logo_url AS \"logoUrl\"\n                FROM companies"

/-- `queryValues.push(v); whereExpressions.push(mk queryValues.length)`:
the placeholder index is the length of the value array after the push. -/
def pushParam (st : List JSVal × List CompPred) (v : JSVal)
    (mk : Nat → CompPred) : List JSVal × List CompPred :=
  (st.1 ++ [v], st.2 ++ [mk (st.1 ++ [v]).length])

/-- Everything `Company.findAll` does before calling `db.query`: the
min/max validation, then one conditional push per filter key, then
assembly of the final SQL text.  Returns the SQL string, the ordered
parameter array, and the appended predicates.  The `name` push is guarded
by JS truthiness (`if(name)`): an absent or empty-string name appends
nothing. -/
def companyFindAllBuild (sf : CompanyFilter) :
    Except JError (String × List JSVal × List CompPred) :=
  if optIntGt sf.minEmployees sf.maxEmployees then
    .error (.badRequest "Minimum employees cannot be greater than max employees.")
  else
    let st0 : List JSVal × List CompPred := ([], [])
    let st1 :=
      match sf.minEmployees with
      | some m => pushParam st0 (.num m) CompPred.minEmp
      | none => st0
    let st2 :=
      match sf.maxEmployees with
      | some m => pushParam st1 (.num m) CompPred.maxEmp
      | none => st1
    let st3 :=
      match sf.name with
      | some n =>
        if n = "" then st2
        else pushParam st2 (.str ("%" ++ n ++ "%")) CompPred.nameILike
      | none => st2
    let whereClause :=
      if st3.2.length > 0 then
        " WHERE " ++ String.intercalate " AND " (st3.2.map CompPred.toSql)
      else ""
    .ok (companyBaseQuery ++ whereClause ++ " ORDER BY name", st3.1, st3.2)

/-- Store-side evaluation of one company predicate against a row, with the
bound parameter array.  A comparison against SQL NULL (absent
`num_employees`) is not satisfied. -/
def evalCompPred (vals : List JSVal) (r : CompanyRow) : CompPred → Bool
  | .minEmp i =>
    match r.numEmployees, vals.get? (i - 1) with
    | some e, some (.num a) => decide (a ≤ e)
    | _, _ => false
  | .maxEmp i =>
    match r.numEmployees, vals.get? (i - 1) with
    | some e, some (.num a) => decide (e ≤ a)
    | _, _ => false
  | .nameILike i =>
    match vals.get? (i - 1) with
    | some (.str pat) => iLike pat r.name
    | _ => false

/-- `ORDER BY name` comparison between company rows. -/
def companyNameLe (a b : CompanyRow) : Prop := a.name ≤ b.name

instance : DecidableRel companyNameLe := fun a b =>
  inferInstanceAs (Decidable (a.name ≤ b.name))

instance : IsTotal CompanyRow companyNameLe :=
  ⟨fun a b => le_total a.name b.name⟩

instance : IsTrans CompanyRow companyNameLe :=
  ⟨fun _ _ _ h1 h2 => le_trans h1 h2⟩

/-- The store executing the generated company SELECT: keep the rows
satisfying every predicate, ordered by `name` ascending. -/
def runCompanyQuery (db : List CompanyRow) (vals : List JSVal)
    (preds : List CompPred) : List CompanyRow :=
  List.insertionSort companyNameLe
    (db.filter (fun r => preds.all (evalCompPred vals r)))

/-- `Company.findAll`: build the query, then run it against the store
(the builder's error propagates without any query being issued). -/
def companyFindAll (db : List CompanyRow) (sf : CompanyFilter) :
    Except JError (List CompanyRow) :=
  match companyFindAllBuild sf with
  | .error e => .error e
  | .ok (_q, vals, preds) => .ok (runCompanyQuery db vals preds)

/-! ## Job.findAll filter-query builder -/

/-- The optional search filters accepted by `Job.findAll`
(`{title, minSalary, hasEquity}`).  `hasEquity` is kept as a raw JS value
because the code compares it with `=== true` and silently ignores every
other value. -/
structure JobFilter where
  title : Option String := none
  minSalary : Option Int := none
  hasEquity : JSVal := .undefined
deriving DecidableEq, Repr

/-- One WHERE predicate appended by `Job.findAll`; `equityPos` is the
literal `equity > 0` comparison that binds no parameter. -/
inductive JobPred where
  | titleILike (i : Nat)
  | minSalaryGe (i : Nat)
  | equityPos
deriving DecidableEq, Repr

/-- The exact SQL text of a job predicate, as pushed into
`whereExpressions`. -/
def JobPred.toSql : JobPred → String
  | .titleILike i => "title ILIKE $" ++ toString i
  | .minSalaryGe i => "salary >= $" ++ toString i
  | .equityPos => "equity > 0"

/-- The initial query text of `Job.findAll` (the template literal in the
source: a LEFT JOIN of jobs with companies on the company handle,
selecting `c.name` alongside the job columns). -/
def jobBaseQuery : String :=
  "SELECT j.id, j.title, j.salary, j.equity, \n            j.company_handle AS \"companyHandle\", c.name\n            FROM jobs j\n            LEFT JOIN companies c\n            ON c.handle = j.company_handle"

/-- `queryValues.push(v); whereExpressions.push(mk queryValues.length)`
for the job builder. -/
def pushJobParam (st : List JSVal × List JobPred) (v : JSVal)
    (mk : Nat → JobPred) : List JSVal × List JobPred :=
  (st.1 ++ [v], st.2 ++ [mk (st.1 ++ [v]).length])

/-- Everything `Job.findAll` does before calling `db.query`: one
conditional push per filter key (`title !== undefined`,
`minSalary !== undefined`, `hasEquity === true`), then assembly of the
final SQL text. -/
def jobFindAllBuild (sf : JobFilter) :
    String × List JSVal × List JobPred :=
  let st0 : List JSVal × List JobPred := ([], [])
  let st1 :=
    match sf.title with
    | some t => pushJobParam st0 (.str ("%" ++ t ++ "%")) JobPred.titleILike
    | none => st0
  let st2 :=
    match sf.minSalary with
    | some m => pushJobParam st1 (.num m) JobPred.minSalaryGe
    | none => st1
  let st3 :=
    if sf.hasEquity = JSVal.bool true then (st2.1, st2.2 ++ [JobPred.equityPos])
    else st2
  let whereClause :=
    if st3.2.length > 0 then
      " WHERE " ++ String.intercalate " AND " (st3.2.map JobPred.toSql)
    else ""
  (jobBaseQuery ++ whereClause ++ " ORDER BY title", st3.1, st3.2)

/-- Store-side evaluation of one job predicate against a jobs-table row.
A comparison against SQL NULL (absent `salary` or `equity`) is not
satisfied. -/
def evalJobPred (vals : List JSVal) (j : JobRow) : JobPred → Bool
  | .titleILike i =>
    match vals.get? (i - 1) with
    | some (.str pat) => iLike pat j.title
    | _ => false
  | .minSalaryGe i =>
    match j.salary, vals.get? (i - 1) with
    | some s, some (.num a) => decide (a ≤ s)
    | _, _ => false
  | .equityPos =>
    match j.equity with
    | some q => decide (0 < q)
    | none => false

/-- A result row of `Job.findAll`: the job columns plus the LEFT-JOINed
company `name` (SQL NULL when no company row matches the handle). -/
structure JobListRow where
  id : Int
  title : String
  salary : Option Int
  equity : Option Rat
  companyHandle : String
  name : Option String
deriving DecidableEq, Repr

/-- The `c.name` column produced by
`LEFT JOIN companies c ON c.handle = j.company_handle` (handles are the
companies' primary key, so at most one row matches). -/
def joinCompanyName (cdb : List CompanyRow) (j : JobRow) : Option String :=
  (cdb.find? (fun c => c.handle == j.companyHandle)).map (fun c => c.name)

/-- Shape one joined row of the `Job.findAll` SELECT. -/
def jobToListRow (cdb : List CompanyRow) (j : JobRow) : JobListRow :=
  { id := j.id, title := j.title, salary := j.salary, equity := j.equity,
    companyHandle := j.companyHandle, name := joinCompanyName cdb j }

/-- `ORDER BY title` comparison between job result rows. -/
def jobTitleLe (a b : JobListRow) : Prop := a.title ≤ b.title

instance : DecidableRel jobTitleLe := fun a b =>
  inferInstanceAs (Decidable (a.title ≤ b.title))

instance : IsTotal JobListRow jobTitleLe :=
  ⟨fun a b => le_total a.title b.title⟩

instance : IsTrans JobListRow jobTitleLe :=
  ⟨fun _ _ _ h1 h2 => le_trans h1 h2⟩

/-- The store executing the generated job SELECT: LEFT JOIN with
companies, keep the rows satisfying every predicate (all predicates read
job columns only), ordered by `title` ascending. -/
def runJobQuery (cdb : List CompanyRow) (jdb : List JobRow)
    (vals : List JSVal) (preds : List JobPred) : List JobListRow :=
  List.insertionSort jobTitleLe
    ((jdb.filter (fun j => preds.all (evalJobPred vals j))).map (jobToListRow cdb))

/-- `Job.findAll`: build the query, then run it against the store. -/
def jobFindAll (cdb : List CompanyRow) (jdb : List JobRow)
    (sf : JobFilter) : List JobListRow :=
  let (_q, vals, preds) := jobFindAllBuild sf
  runJobQuery cdb jdb vals preds

/-! ## Partial-update builder and CRUD operations -/

/-- A plain JS object: an ordered association of keys and values
(JS objects iterate keys in insertion order). -/
abbrev JSObj := List (String × JSVal)

/-- Property access `o[k]`: `undefined` when the key is absent. -/
def jsGet (o : JSObj) (k : String) : JSVal :=
  (o.lookup k).getD .undefined

/-- Modelled from the spec: the shared partial-update builder
(`sqlForPartialUpdate` of helpers/sql.js, whose source is not part of the
provided files).  Per the spec it fails with a BadRequest-kind error if
the data object has zero keys, before building any SQL; otherwise for
each key in iteration order it emits `"<column_name>"=$<n>` with a
1-based index, mapping semantic field names through `jsToSql` and falling
back to the key itself, and returns the comma-joined SET fragment with
the ordered value array. -/
def sqlForPartialUpdate (data : JSObj) (jsToSql : List (String × String)) :
    Except JError (String × List JSVal) :=
  let keys := data.map (fun kv => kv.1)
  if keys.length = 0 then .error (.badRequest "No data")
  else
    let cols := data.enum.map (fun p =>
      "\"" ++ ((jsToSql.lookup p.2.1).getD p.2.1) ++ "\"=$" ++ toString (p.1 + 1))
    .ok (String.intercalate ", " cols, data.map (fun kv => kv.2))

/-- The semantic-name-to-column mapping `Company.update` passes to the
partial-update builder. -/
def companyJsToSql : List (String × String) :=
  [("numEmployees", "num_employees"), ("logoUrl", "logo_url")]

/-- Apply one SET column of the generated UPDATE to a company row.  Only
the columns of the `companies` table can appear in a well-formed call;
the claims below restrict update payloads to the documented updatable
fields, so the catch-all branch is never exercised. -/
def applyCompanyCol (r : CompanyRow) (col : String) (v : JSVal) : CompanyRow :=
  if col = "name" then
    match v with | .str s => { r with name := s } | _ => r
  else if col = "description" then
    match v with | .str s => { r with description := s } | _ => r
  else if col = "num_employees" then
    match v with
    | .num n => { r with numEmployees := some n }
    | .null => { r with numEmployees := none }
    | _ => r
  else if col = "logo_url" then
    match v with
    | .str s => { r with logoUrl := some s }
    | .null => { r with logoUrl := none }
    | _ => r
  else r

/-- `Company.update`: run the partial-update builder (which rejects an
empty payload before any SQL exists), then execute
`UPDATE companies SET ... WHERE handle = $n RETURNING ...`; zero returned
rows means NotFound. -/
def companyUpdate (db : List CompanyRow) (handle : String) (data : JSObj) :
    Except JError CompanyRow :=
  match sqlForPartialUpdate data companyJsToSql with
  | .error e => .error e
  | .ok _ =>
    match db.find? (fun r => r.handle == handle) with
    | none => .error (.notFound ("No company: " ++ handle))
    | some r =>
      .ok (data.foldl
        (fun acc kv => applyCompanyCol acc ((companyJsToSql.lookup kv.1).getD kv.1) kv.2) r)

/-- Apply one SET column of the generated UPDATE to a job row
(`Job.update` passes an empty mapping, so column names are the data keys
as-is). -/
def applyJobCol (j : JobRow) (col : String) (v : JSVal) : JobRow :=
  if col = "title" then
    match v with | .str s => { j with title := s } | _ => j
  else if col = "salary" then
    match v with
    | .num n => { j with salary := some n }
    | .null => { j with salary := none }
    | _ => j
  else if col = "equity" then
    match v with
    | .num n => { j with equity := some (n : Rat) }
    | .null => { j with equity := none }
    | _ => j
  else j

/-- `Job.update`: run the partial-update builder with an empty mapping,
then execute `UPDATE jobs SET ... WHERE id = $n RETURNING ...`; zero
returned rows means NotFound. -/
def jobUpdate (jdb : List JobRow) (id : Int) (data : JSObj) :
    Except JError JobRow :=
  match sqlForPartialUpdate data [] with
  | .error e => .error e
  | .ok _ =>
    match jdb.find? (fun j => j.id == id) with
    | none => .error (.notFound ("Job " ++ toString id ++ " not found."))
    | some j =>
      .ok (data.foldl (fun acc kv => applyJobCol acc kv.1 kv.2) j)

/-- `Company.remove`: `DELETE FROM companies WHERE handle = $1 RETURNING
handle`; zero returned rows means NotFound, and on success the function
returns no payload. -/
def companyRemove (db : List CompanyRow) (handle : String) :
    Except JError Unit :=
  match db.find? (fun r => r.handle == handle) with
  | none => .error (.notFound ("No company: " ++ handle))
  | some _ => .ok ()

/-- `Job.remove`: `DELETE FROM jobs WHERE id = $1 RETURNING id`; zero
returned rows means NotFound, and on success the function returns no
payload. -/
def jobRemove (jdb : List JobRow) (id : Int) : Except JError Unit :=
  match jdb.find? (fun j => j.id == id) with
  | none => .error (.notFound ("Job " ++ toString id ++ " not found."))
  | some _ => .ok ()

/-- The projection of a company's job selected by `Company.get`'s second
query (`SELECT id, title, salary, equity FROM jobs WHERE company_handle =
$1`). -/
structure JobLite where
  id : Int
  title : String
  salary : Option Int
  equity : Option Rat
deriving DecidableEq, Repr

/-- The enriched result of `Company.get`: the company row plus the nested
`jobs` collection. -/
structure CompanyWithJobs where
  handle : String
  name : String
  description : String
  numEmployees : Option Int
  logoUrl : Option String
  jobs : List JobLite
deriving DecidableEq, Repr

/-- `Company.get`: fetch the company row (NotFound when the first query
returns zero rows), then fetch its jobs and attach them as
`company.jobs`. -/
def companyGet (cdb : List CompanyRow) (jdb : List JobRow) (handle : String) :
    Except JError CompanyWithJobs :=
  match cdb.find? (fun r => r.handle == handle) with
  | none => .error (.notFound ("No company: " ++ handle))
  | some c =>
    let jobs := (jdb.filter (fun j => j.companyHandle == c.handle)).map
      (fun j => JobLite.mk j.id j.title j.salary j.equity)
    .ok { handle := c.handle, name := c.name, description := c.description,
          numEmployees := c.numEmployees, logoUrl := c.logoUrl, jobs := jobs }

/-- The enriched result of `Job.get`: the job columns with the top-level
`companyHandle` field deleted and the owning company's public fields
attached as the nested `company` object (`undefined` when the company row
is absent). -/
structure JobWithCompany where
  id : Int
  title : String
  salary : Option Int
  equity : Option Rat
  company : Option CompanyRow
deriving DecidableEq, Repr

/-- `Job.get`: fetch the job row (NotFound when the first query returns
zero rows), then fetch the owning company, delete `job.companyHandle`,
and attach `job.company`. -/
def jobGet (cdb : List CompanyRow) (jdb : List JobRow) (id : Int) :
    Except JError JobWithCompany :=
  match jdb.find? (fun j => j.id == id) with
  | none => .error (.notFound ("Job ID: " ++ toString id ++ " not found."))
  | some j =>
    .ok { id := j.id, title := j.title, salary := j.salary, equity := j.equity,
          company := cdb.find? (fun c => c.handle == j.companyHandle) }

/-- The parameter array bound by `Job.create`'s INSERT, read off the input
object: `[data.title, data.salary, data.equity, data.company_handle]` —
note the snake_case `company_handle` access. -/
def jobCreateValues (data : JSObj) : List JSVal :=
  [jsGet data "title", jsGet data "salary", jsGet data "equity",
   jsGet data "company_handle"]

/-- The INSERT text of `Job.create` (the template literal in the source),
whose RETURNING clause aliases `company_handle` to the semantic name
`companyHandle`. -/
def jobCreateSql : String :=
  "INSERT INTO jobs\n            (title, salary, equity, company_handle)\n            VALUES\n            ($1, $2, $3, $4)\n            RETURNING id, title, salary, equity, company_handle AS \"companyHandle\""

/-- `Job.create`: the row the store returns for the INSERT above — the
generated id plus the four bound values, keyed by the RETURNING column
aliases. -/
def jobCreate (nextId : Int) (data : JSObj) : JSObj :=
  [("id", JSVal.num nextId),
   ("title", jsGet data "title"),
   ("salary", jsGet data "salary"),
   ("equity", jsGet data "equity"),
   ("companyHandle", jsGet data "company_handle")]

/-! ## Helper lemmas -/

theorem mem_runCompanyQuery {db : List CompanyRow} {vals : List JSVal}
    {preds : List CompPred} {r : CompanyRow} :
    r ∈ runCompanyQuery db vals preds ↔
      r ∈ db ∧ preds.all (evalCompPred vals r) = true := by
  unfold runCompanyQuery
  rw [List.mem_insertionSort, List.mem_filter]

theorem mem_runJobQuery {cdb : List CompanyRow} {jdb : List JobRow}
    {vals : List JSVal} {preds : List JobPred} {x : JobListRow} :
    x ∈ runJobQuery cdb jdb vals preds ↔
      ∃ j, j ∈ jdb ∧ preds.all (evalJobPred vals j) = true ∧ x = jobToListRow cdb j := by
  unfold runJobQuery
  rw [List.mem_insertionSort, List.mem_map]
  constructor
  · rintro ⟨j, hj, rfl⟩
    rw [List.mem_filter] at hj
    exact ⟨j, hj.1, hj.2, rfl⟩
  · rintro ⟨j, hj, hall, rfl⟩
    exact ⟨j, List.mem_filter.mpr ⟨hj, hall⟩, rfl⟩

/-! ## Claim theorems -/

/-- C1: in `Company.findAll`, whenever both `minEmployees` and
`maxEmployees` are present and `min > max`, the call fails with a
BadRequest-kind error before any query is issued (the builder itself
errors, so the result is the same error for every store state); and
whenever `min ≤ max`, every returned company's employee count `e`
satisfies `min ≤ e ≤ max`. -/
theorem company_findAll_minmax (db : List CompanyRow) (a b : Int)
    (nm : Option String) :
    (a > b →
      companyFindAllBuild { minEmployees := some a, maxEmployees := some b, name := nm } =
        .error (.badRequest "Minimum employees cannot be greater than max employees.") ∧
      companyFindAll db { minEmployees := some a, maxEmployees := some b, name := nm } =
        .error (.badRequest "Minimum employees cannot be greater than max employees.")) ∧
    (a ≤ b →
      ∀ rows,
        companyFindAll db { minEmployees := some a, maxEmployees := some b, name := nm } =
          .ok rows →
        ∀ r ∈ rows, ∃ e, r.numEmployees = some e ∧ a ≤ e ∧ e ≤ b) := by
  constructor
  · intro hab
    have hb : companyFindAllBuild
        { minEmployees := some a, maxEmployees := some b, name := nm } =
        .error (.badRequest "Minimum employees cannot be greater than max employees.") := by
      simp [companyFindAllBuild, optIntGt, hab]
    exact ⟨hb, by simp [companyFindAll, hb]⟩
  · intro hab rows hrows r hr
    have hgt : optIntGt (some a) (some b) = false := by
      simp [optIntGt]
      omega
    rcases nm with _ | n
    · simp [companyFindAll, companyFindAllBuild, hgt, pushParam] at hrows
      subst hrows
      obtain ⟨-, hall⟩ := mem_runCompanyQuery.mp hr
      cases hre : r.numEmployees with
      | none => simp [evalCompPred, hre] at hall
      | some e =>
        simp [evalCompPred, hre] at hall
        exact ⟨e, rfl, hall.1, hall.2⟩
    · by_cases hn : n = ""
      · subst hn
        simp [companyFindAll, companyFindAllBuild, hgt, pushParam] at hrows
        subst hrows
        obtain ⟨-, hall⟩ := mem_runCompanyQuery.mp hr
        cases hre : r.numEmployees with
        | none => simp [evalCompPred, hre] at hall
        | some e =>
          simp [evalCompPred, hre] at hall
          exact ⟨e, rfl, hall.1, hall.2⟩
      · simp [companyFindAll, companyFindAllBuild, hgt, pushParam, hn] at hrows
        subst hrows
        obtain ⟨-, hall⟩ := mem_runCompanyQuery.mp hr
        cases hre : r.numEmployees with
        | none => simp [evalCompPred, hre] at hall
        | some e =>
          simp [evalCompPred, hre] at hall
          exact ⟨e, rfl, hall.1, hall.2.1⟩

/-- Witness for C1 at concrete inputs: `min = 5 > 3 = max` errors, and
with bounds `1 ≤ 3` the returned row's employee count lies in range. -/
theorem company_findAll_minmax_witness :
    companyFindAll [] { minEmployees := some 5, maxEmployees := some 3, name := none } =
      .error (.badRequest "Minimum employees cannot be greater than max employees.") ∧
    (∃ e, (CompanyRow.mk "c1" "C1" "Desc1" (some 2) none).numEmployees = some e ∧
      1 ≤ e ∧ e ≤ 3) := by
  constructor
  · exact ((company_findAll_minmax [] 5 3 none).1 (by decide)).2
  · exact (company_findAll_minmax [CompanyRow.mk "c1" "C1" "Desc1" (some 2) none] 1 3 none).2
      (by decide) [CompanyRow.mk "c1" "C1" "Desc1" (some 2) none] (by rfl)
      (CompanyRow.mk "c1" "C1" "Desc1" (some 2) none) (by simp)

/-- The row condition denoted by the literal SQL predicate `equity > 0`
(not satisfied by SQL NULL). -/
def equityGt0 (j : JobRow) : Bool :=
  match j.equity with
  | some q => decide (0 < q)
  | none => false

/-- C2: in `Job.findAll`, when `hasEquity` is exactly the boolean `true`
the builder appends the literal predicate `equity > 0` while the bound
parameter array is unchanged (no bound positional parameter), and exactly
the rows with equity > 0 are returned; for every other value of
`hasEquity` the build is identical to the one with the key absent, no
equity predicate is appended, and all rows are returned unrestricted by
equity. -/
theorem job_findAll_hasEquity (cdb : List CompanyRow) (jdb : List JobRow)
    (t : Option String) (m : Option Int) (v : JSVal) :
    (jobFindAllBuild { title := t, minSalary := m, hasEquity := .bool true }).2.1 =
      (jobFindAllBuild { title := t, minSalary := m, hasEquity := .undefined }).2.1 ∧
    (jobFindAllBuild { title := t, minSalary := m, hasEquity := .bool true }).2.2 =
      (jobFindAllBuild { title := t, minSalary := m, hasEquity := .undefined }).2.2 ++
        [JobPred.equityPos] ∧
    JobPred.toSql .equityPos = "equity > 0" ∧
    jobFindAll cdb jdb { hasEquity := .bool true } =
      List.insertionSort jobTitleLe ((jdb.filter equityGt0).map (jobToListRow cdb)) ∧
    (v ≠ .bool true →
      jobFindAllBuild { title := t, minSalary := m, hasEquity := v } =
        jobFindAllBuild { title := t, minSalary := m, hasEquity := .undefined } ∧
      JobPred.equityPos ∉ (jobFindAllBuild { title := t, minSalary := m, hasEquity := v }).2.2 ∧
      jobFindAll cdb jdb { hasEquity := v } =
        List.insertionSort jobTitleLe (jdb.map (jobToListRow cdb))) := by
  refine ⟨?_, ?_, rfl, ?_, ?_⟩
  · cases t <;> cases m <;> simp [jobFindAllBuild, pushJobParam]
  · cases t <;> cases m <;> simp [jobFindAllBuild, pushJobParam]
  · have hb : jobFindAllBuild { hasEquity := JSVal.bool true } =
        (jobBaseQuery ++ " WHERE equity > 0" ++ " ORDER BY title", [], [JobPred.equityPos]) := by
      rfl
    simp only [jobFindAll, hb, runJobQuery]
    congr 1
    congr 1
    apply List.filter_congr
    intro j _
    cases hje : j.equity <;> simp [evalJobPred, equityGt0, hje]
  · intro hv
    refine ⟨?_, ?_, ?_⟩
    · simp [jobFindAllBuild, hv]
    · cases t <;> cases m <;> simp [jobFindAllBuild, pushJobParam, hv]
    · simp [jobFindAll, jobFindAllBuild, runJobQuery, hv, List.filter_true]

/-- A sample company row (the `c1` fixture of the test suite). -/
def c1Row : CompanyRow :=
  { handle := "c1", name := "C1", description := "Desc1",
    numEmployees := some 1, logoUrl := some "http://c1.img" }

/-- A sample job row (the `t1` fixture of the test suite). -/
def t1Job : JobRow :=
  { id := 1, title := "t1", salary := some 100, equity := some (1/10 : Rat),
    companyHandle := "c1" }

/-- Witness for C2 at a concrete input: `hasEquity: null` builds the same
query as an absent key, appends no equity predicate, and returns all
rows. -/
theorem job_findAll_hasEquity_witness :
    jobFindAllBuild { title := none, minSalary := none, hasEquity := JSVal.null } =
      jobFindAllBuild { title := none, minSalary := none, hasEquity := JSVal.undefined } ∧
    JobPred.equityPos ∉
      (jobFindAllBuild { title := none, minSalary := none, hasEquity := JSVal.null }).2.2 ∧
    jobFindAll [c1Row] [t1Job] { hasEquity := JSVal.null } =
      List.insertionSort jobTitleLe ([t1Job].map (jobToListRow [c1Row])) :=
  (job_findAll_hasEquity [c1Row] [t1Job] none none JSVal.null).2.2.2.2 (by decide)

/-- JS truthiness of the company `name` filter value as tested by
`if(name)`: an absent key (`undefined`) and the empty string are falsy. -/
def strTruthy : Option String → Bool
  | some s => !(s == "")
  | none => false

/-- C3 counterexample: the filter `{name: ""}` has the recognized key
`name` present, yet `Company.findAll` appends zero predicates (the push
is guarded by JS truthiness), refuting "exactly one predicate per present
recognized key". -/
theorem company_name_empty_pred_counterexample :
    (CompanyFilter.mk none none (some "")).name ≠ none ∧
    companyFindAllBuild (CompanyFilter.mk none none (some "")) =
      .ok (companyBaseQuery ++ " ORDER BY name", [], []) :=
  ⟨by simp, rfl⟩

/-- The parameter array of a successful `Company.findAll` build. -/
def companyBuildVals (cf : CompanyFilter) : List JSVal :=
  match companyFindAllBuild cf with
  | .ok (_, v, _) => v
  | .error _ => []

/-- The predicate list of a successful `Company.findAll` build. -/
def companyBuildPreds (cf : CompanyFilter) : List CompPred :=
  match companyFindAllBuild cf with
  | .ok (_, _, p) => p
  | .error _ => []

/-- C3 amended: one predicate per present recognized key, except that the
company `name` key contributes only when its value is truthy (non-empty)
and the job `hasEquity` key only when it is exactly `true`; unrecognized
or absent keys contribute nothing.  A truthy `name` and any present
`title` always yield one case-insensitive `%value%` pattern-match
predicate binding the wrapped value.  (The company side is stated for
builds that pass the min/max validation.) -/
theorem findAll_pred_per_key (cf : CompanyFilter) (jf : JobFilter) :
    (optIntGt cf.minEmployees cf.maxEmployees = false →
      (companyBuildPreds cf).length =
        (if cf.minEmployees.isSome then 1 else 0) +
          (if cf.maxEmployees.isSome then 1 else 0) +
          (if strTruthy cf.name then 1 else 0) ∧
      (∀ s, cf.name = some s → s ≠ "" →
        CompPred.nameILike (companyBuildVals cf).length ∈ companyBuildPreds cf ∧
        (companyBuildVals cf).getLast? = some (.str ("%" ++ s ++ "%")))) ∧
    ((jobFindAllBuild jf).2.2.length =
      (if jf.title.isSome then 1 else 0) +
        (if jf.minSalary.isSome then 1 else 0) +
        (if jf.hasEquity = JSVal.bool true then 1 else 0)) ∧
    (∀ s, jf.title = some s →
      JobPred.titleILike 1 ∈ (jobFindAllBuild jf).2.2 ∧
      (jobFindAllBuild jf).2.1.head? = some (.str ("%" ++ s ++ "%"))) := by
  refine ⟨?_, ?_, ?_⟩
  · intro hgt
    rcases cf with ⟨mn, mx, nm⟩
    rcases mn with _ | a <;> rcases mx with _ | b <;> rcases nm with _ | n <;>
        simp_all [companyBuildPreds, companyBuildVals, companyFindAllBuild,
          pushParam, strTruthy] <;>
      by_cases hn : n = "" <;> simp [hn]
  · rcases jf with ⟨t, m, hq⟩
    rcases t with _ | s <;> rcases m with _ | a <;>
      by_cases he : hq = JSVal.bool true <;>
      simp [jobFindAllBuild, pushJobParam, he]
  · rcases jf with ⟨t, m, hq⟩
    intro s hs
    subst hs
    rcases m with _ | a <;>
      by_cases he : hq = JSVal.bool true <;>
      simp [jobFindAllBuild, pushJobParam, he]

/-- Witness for C3 at concrete inputs: filter
`{minEmployees: 1, maxEmployees: 3, name: "net"}` yields three predicates
with the pattern predicate binding `%net%`, and a job filter with `title`
present yields the `title ILIKE $1` predicate binding `%t%`. -/
theorem findAll_pred_per_key_witness :
    (companyBuildPreds (CompanyFilter.mk (some 1) (some 3) (some "net"))).length = 3 ∧
    CompPred.nameILike
        (companyBuildVals (CompanyFilter.mk (some 1) (some 3) (some "net"))).length ∈
      companyBuildPreds (CompanyFilter.mk (some 1) (some 3) (some "net")) ∧
    JobPred.titleILike 1 ∈
      (jobFindAllBuild (JobFilter.mk (some "t") (some 5) (JSVal.bool true))).2.2 := by
  have h := findAll_pred_per_key (CompanyFilter.mk (some 1) (some 3) (some "net"))
    (JobFilter.mk (some "t") (some 5) (JSVal.bool true))
  refine ⟨?_, ?_, ?_⟩
  · have h1 := (h.1 (by decide)).1
    simpa using h1
  · exact ((h.1 (by decide)).2 "net" rfl (by decide)).1
  · exact (h.2.2 "t" rfl).1

/-- The placeholder indices occurring in one company predicate's SQL text
(each `CompPred.toSql` renders index `i` as `$i`). -/
def compPredIdx : CompPred → List Nat
  | .minEmp i => [i]
  | .maxEmp i => [i]
  | .nameILike i => [i]

/-- The placeholder indices occurring in one job predicate's SQL text;
the literal `equity > 0` has none. -/
def jobPredIdx : JobPred → List Nat
  | .titleILike i => [i]
  | .minSalaryGe i => [i]
  | .equityPos => []

/-- C4: in every query produced by the two filter builders, the
positional placeholders, read off the predicates in the order they were
appended, are numbered exactly `$1..$n` where `n` is the length of the
parameter array — so the i-th placeholder refers to the i-th bound value
and the counts agree.  (The company side is stated for builds that pass
the min/max validation; a failed build produces no SQL string.) -/
theorem findAll_placeholders_sequential (cf : CompanyFilter) (jf : JobFilter) :
    (optIntGt cf.minEmployees cf.maxEmployees = false →
      ((companyBuildPreds cf).map compPredIdx).flatten =
        List.range' 1 (companyBuildVals cf).length) ∧
    ((jobFindAllBuild jf).2.2.map jobPredIdx).flatten =
      List.range' 1 (jobFindAllBuild jf).2.1.length := by
  constructor
  · intro hgt
    rcases cf with ⟨mn, mx, nm⟩
    rcases mn with _ | a <;> rcases mx with _ | b <;> rcases nm with _ | n <;>
        simp_all [companyBuildPreds, companyBuildVals, companyFindAllBuild,
          pushParam, compPredIdx, List.range'] <;>
      by_cases hn : n = "" <;> simp [hn, compPredIdx, List.range']
  · rcases jf with ⟨t, m, hq⟩
    rcases t with _ | s <;> rcases m with _ | a <;>
      by_cases he : hq = JSVal.bool true <;>
      simp [jobFindAllBuild, pushJobParam, jobPredIdx, he, List.range']

/-- Witness for C4 at a concrete input: the all-keys company filter
produces placeholders `[1, 2, 3]` for its three bound values. -/
theorem findAll_placeholders_sequential_witness :
    ((companyBuildPreds (CompanyFilter.mk (some 1) (some 3) (some "net"))).map
        compPredIdx).flatten =
      List.range' 1 (companyBuildVals (CompanyFilter.mk (some 1) (some 3) (some "net"))).length :=
  (findAll_placeholders_sequential (CompanyFilter.mk (some 1) (some 3) (some "net"))
    (JobFilter.mk none none .undefined)).1 (by decide)

/-- C5: for both `Company.update` and `Job.update`, an update whose data
object has zero keys fails with a BadRequest-kind error raised inside the
partial-update builder — before any SQL is built — and therefore for
every identifying key and every store state, no query is issued and the
same error is returned. -/
theorem update_empty_data_badRequest (cdb : List CompanyRow) (jdb : List JobRow)
    (handle : String) (id : Int) :
    sqlForPartialUpdate [] companyJsToSql = .error (.badRequest "No data") ∧
    sqlForPartialUpdate [] [] = .error (.badRequest "No data") ∧
    companyUpdate cdb handle [] = .error (.badRequest "No data") ∧
    jobUpdate jdb id [] = .error (.badRequest "No data") :=
  ⟨rfl, rfl, rfl, rfl⟩

/-- Recognizer for a NotFound-kind result. -/
def isNotFoundErr {α : Type} : Except JError α → Bool
  | .error (.notFound _) => true
  | _ => false

/-- C6 counterexample: `Company.update` on the non-existent handle
`"nope"` with an empty data object raises BadRequest, not NotFound, even
though no row matches that key — refuting "update raises NotFound exactly
when no row matches". -/
theorem update_notFound_counterexample :
    List.find? (fun r => r.handle == "nope") ([] : List CompanyRow) = none ∧
    isNotFoundErr (companyUpdate ([] : List CompanyRow) "nope" []) = false ∧
    companyUpdate ([] : List CompanyRow) "nope" [] = .error (.badRequest "No data") :=
  ⟨rfl, rfl, rfl⟩

/-- The updatable fields documented for `Company.update`. -/
def companyUpdatableKey (k : String) : Bool :=
  k == "name" || k == "description" || k == "numEmployees" || k == "logoUrl"

/-- The updatable fields documented for `Job.update`. -/
def jobUpdatableKey (k : String) : Bool :=
  k == "title" || k == "salary" || k == "equity"

/-- C6 amended: for every identifying key, `get` and `remove` raise a
NotFound-kind error exactly when the query finds no matching row, and
`update` does so provided its data object has at least one key (drawn
from the documented updatable fields) — an empty data object raises
BadRequest first, whatever the key.  On success `remove` returns no
payload.  The NotFound condition is the query result being empty: the
models inspect only the returned rows. -/
theorem crud_notFound_iff (cdb : List CompanyRow) (jdb : List JobRow)
    (h : String) (i : Int) (cdata jdata : JSObj) :
    (isNotFoundErr (companyGet cdb jdb h) = true ↔
      cdb.find? (fun r => r.handle == h) = none) ∧
    (isNotFoundErr (companyRemove cdb h) = true ↔
      cdb.find? (fun r => r.handle == h) = none) ∧
    (cdata ≠ [] → (∀ kv ∈ cdata, companyUpdatableKey kv.1 = true) →
      (isNotFoundErr (companyUpdate cdb h cdata) = true ↔
        cdb.find? (fun r => r.handle == h) = none)) ∧
    (isNotFoundErr (jobGet cdb jdb i) = true ↔
      jdb.find? (fun j => j.id == i) = none) ∧
    (isNotFoundErr (jobRemove jdb i) = true ↔
      jdb.find? (fun j => j.id == i) = none) ∧
    (jdata ≠ [] → (∀ kv ∈ jdata, jobUpdatableKey kv.1 = true) →
      (isNotFoundErr (jobUpdate jdb i jdata) = true ↔
        jdb.find? (fun j => j.id == i) = none)) ∧
    (cdb.find? (fun r => r.handle == h) ≠ none → companyRemove cdb h = .ok ()) ∧
    (jdb.find? (fun j => j.id == i) ≠ none → jobRemove jdb i = .ok ()) := by
  refine ⟨?_, ?_, ?_, ?_, ?_, ?_, ?_, ?_⟩
  · cases hf : cdb.find? (fun r => r.handle == h) <;>
      simp [companyGet, hf, isNotFoundErr]
  · cases hf : cdb.find? (fun r => r.handle == h) <;>
      simp [companyRemove, hf, isNotFoundErr]
  · intro hne _
    rcases cdata with _ | ⟨kv, tl⟩
    · exact absurd rfl hne
    · cases hf : cdb.find? (fun r => r.handle == h) <;>
        simp [companyUpdate, sqlForPartialUpdate, hf, isNotFoundErr]
  · cases hf : jdb.find? (fun j => j.id == i) <;>
      simp [jobGet, hf, isNotFoundErr]
  · cases hf : jdb.find? (fun j => j.id == i) <;>
      simp [jobRemove, hf, isNotFoundErr]
  · intro hne _
    rcases jdata with _ | ⟨kv, tl⟩
    · exact absurd rfl hne
    · cases hf : jdb.find? (fun j => j.id == i) <;>
        simp [jobUpdate, sqlForPartialUpdate, hf, isNotFoundErr]
  · intro hne
    cases hf : cdb.find? (fun r => r.handle == h)
    · exact absurd hf hne
    · simp [companyRemove, hf]
  · intro hne
    cases hf : jdb.find? (fun j => j.id == i)
    · exact absurd hf hne
    · simp [jobRemove, hf]

/-- Witness for C6 at concrete inputs: one-field updates on existing rows
do not raise NotFound, and removing an existing company returns no
payload. -/
theorem crud_notFound_iff_witness :
    (isNotFoundErr (companyUpdate [c1Row] "c1" [("name", JSVal.str "New")]) = true ↔
      List.find? (fun r => r.handle == "c1") [c1Row] = none) ∧
    (isNotFoundErr (jobUpdate [t1Job] 1 [("title", JSVal.str "newT1")]) = true ↔
      List.find? (fun j => j.id == 1) [t1Job] = none) ∧
    companyRemove [c1Row] "c1" = .ok () :=
  have hw := crud_notFound_iff [c1Row] [t1Job] "c1" 1
    [("name", JSVal.str "New")] [("title", JSVal.str "newT1")]
  ⟨hw.2.2.1 (by decide) (by decide),
   hw.2.2.2.2.2.1 (by decide) (by decide),
   hw.2.2.2.2.2.2.1 (by decide)⟩

/-- C7: `Company.get` attaches the company's jobs, projected to exactly
`id, title, salary, equity`, as the nested `jobs` collection; `Job.get`
returns the job's own fields with the nested `company` object (the owning
company's public fields, looked up by the job's handle) and no top-level
`companyHandle` field — the returned `JobWithCompany` value is fully
determined by the matched job row and carries the handle only inside
`company`. -/
theorem get_enrichment (cdb : List CompanyRow) (jdb : List JobRow)
    (h : String) (i : Int) :
    (∀ c, companyGet cdb jdb h = .ok c →
      c.jobs = (jdb.filter (fun j => j.companyHandle == c.handle)).map
        (fun j => JobLite.mk j.id j.title j.salary j.equity)) ∧
    (∀ jw, jobGet cdb jdb i = .ok jw →
      ∃ j, j ∈ jdb ∧ j.id = i ∧
        jw = JobWithCompany.mk j.id j.title j.salary j.equity
          (cdb.find? (fun c => c.handle == j.companyHandle))) := by
  constructor
  · intro c hc
    cases hf : cdb.find? (fun r => r.handle == h) with
    | none => simp [companyGet, hf] at hc
    | some c0 =>
      simp [companyGet, hf] at hc
      subst hc
      rfl
  · intro jw hjw
    cases hf : jdb.find? (fun j => j.id == i) with
    | none => simp [jobGet, hf] at hjw
    | some j =>
      simp [jobGet, hf] at hjw
      subst hjw
      refine ⟨j, List.mem_of_find?_eq_some hf, ?_, rfl⟩
      have hp := List.find?_some hf
      simpa using hp

/-- Witness for C7 at concrete inputs: `Company.get "c1"` attaches the
`t1` job projected to its four fields, and `Job.get 1` returns the job
with the nested `c1` company and no top-level handle field. -/
theorem get_enrichment_witness :
    (CompanyWithJobs.mk "c1" "C1" "Desc1" (some 1) (some "http://c1.img")
        [JobLite.mk 1 "t1" (some 100) (some (1/10 : Rat))]).jobs =
      ([t1Job].filter (fun j => j.companyHandle == "c1")).map
        (fun j => JobLite.mk j.id j.title j.salary j.equity) ∧
    (∃ j, j ∈ [t1Job] ∧ j.id = 1 ∧
      JobWithCompany.mk 1 "t1" (some 100) (some (1/10 : Rat)) (some c1Row) =
        JobWithCompany.mk j.id j.title j.salary j.equity
          (List.find? (fun c => c.handle == j.companyHandle) [c1Row])) := by
  constructor
  · exact (get_enrichment [c1Row] [t1Job] "c1" 1).1 _ (by rfl)
  · exact (get_enrichment [c1Row] [t1Job] "c1" 1).2 _ (by rfl)

/-- The SQL text of a successful `Company.findAll` build. -/
def companyBuildSql (cf : CompanyFilter) : String :=
  match companyFindAllBuild cf with
  | .ok (q, _, _) => q
  | .error _ => ""

/-- C8: a filter that produces zero predicates yields a query with no
WHERE clause (the SQL is exactly the base query followed by the ORDER BY)
and returns all rows; every SELECT either builder emits ends with
`ORDER BY` on the display name (company `name`, job `title`), and the
returned rows are sorted ascending by it. -/
theorem findAll_noWhere_and_order (cf : CompanyFilter) (jf : JobFilter)
    (db cdb : List CompanyRow) (jdb : List JobRow) :
    (optIntGt cf.minEmployees cf.maxEmployees = false →
      companyBuildPreds cf = [] →
      companyBuildSql cf = companyBaseQuery ++ " ORDER BY name" ∧
      companyFindAll db cf = .ok (List.insertionSort companyNameLe db)) ∧
    ((jobFindAllBuild jf).2.2 = [] →
      (jobFindAllBuild jf).1 = jobBaseQuery ++ " ORDER BY title" ∧
      jobFindAll cdb jdb jf =
        List.insertionSort jobTitleLe (jdb.map (jobToListRow cdb))) ∧
    (optIntGt cf.minEmployees cf.maxEmployees = false →
      ∃ p, companyBuildSql cf = p ++ " ORDER BY name") ∧
    (∃ p, (jobFindAllBuild jf).1 = p ++ " ORDER BY title") ∧
    (∀ rows, companyFindAll db cf = .ok rows → List.Sorted companyNameLe rows) ∧
    List.Sorted jobTitleLe (jobFindAll cdb jdb jf) := by
  refine ⟨?_, ?_, ?_, ?_, ?_, ?_⟩
  · intro hgt hp
    rcases cf with ⟨mn, mx, nm⟩
    rcases mn with _ | a <;> rcases mx with _ | b <;> rcases nm with _ | n <;>
        simp_all [companyBuildPreds, companyBuildSql, companyFindAll,
          companyFindAllBuild, runCompanyQuery, pushParam, List.filter_true]
  · intro hp
    rcases jf with ⟨t, m, hq⟩
    rcases t with _ | s <;> rcases m with _ | a <;>
      by_cases he : hq = JSVal.bool true <;>
      simp_all [jobFindAll, jobFindAllBuild, runJobQuery, pushJobParam,
        List.filter_true]
  · intro hgt
    rcases cf with ⟨mn, mx, nm⟩
    rcases mn with _ | a <;> rcases mx with _ | b <;> rcases nm with _ | n <;>
        simp_all [companyBuildSql, companyFindAllBuild, pushParam]
    all_goals exact ⟨_, rfl⟩
  · rcases jf with ⟨t, m, hq⟩
    rcases t with _ | s <;> rcases m with _ | a <;>
      by_cases he : hq = JSVal.bool true <;>
      simp [jobFindAllBuild, pushJobParam, he] <;>
      exact ⟨_, rfl⟩
  · intro rows hrows
    cases hb : companyFindAllBuild cf with
    | error e => simp [companyFindAll, hb] at hrows
    | ok trip =>
      rcases trip with ⟨q, vals, preds⟩
      simp [companyFindAll, hb] at hrows
      subst hrows
      exact List.sorted_insertionSort companyNameLe _
  · exact List.sorted_insertionSort jobTitleLe _

/-- Witness for C8 at concrete inputs: the empty filters produce the
WHERE-less queries and return all rows sorted. -/
theorem findAll_noWhere_and_order_witness :
    (companyBuildSql (CompanyFilter.mk none none none) =
        companyBaseQuery ++ " ORDER BY name" ∧
      companyFindAll [c1Row] (CompanyFilter.mk none none none) =
        .ok (List.insertionSort companyNameLe [c1Row])) ∧
    ((jobFindAllBuild (JobFilter.mk none none .undefined)).1 =
        jobBaseQuery ++ " ORDER BY title" ∧
      jobFindAll [c1Row] [t1Job] (JobFilter.mk none none .undefined) =
        List.insertionSort jobTitleLe ([t1Job].map (jobToListRow [c1Row]))) ∧
    List.Sorted companyNameLe (List.insertionSort companyNameLe [c1Row]) :=
  have hw := findAll_noWhere_and_order (CompanyFilter.mk none none none)
    (JobFilter.mk none none .undefined) [c1Row] [c1Row] [t1Job]
  ⟨hw.1 (by decide) (by rfl), hw.2.1 (by rfl),
   hw.2.2.2.2.1 (List.insertionSort companyNameLe [c1Row])
     (hw.1 (by decide) (by rfl)).2⟩

/-- C9: `Job.create` reads the company handle from the input key
`company_handle` (the storage column name): when the input supplies the
handle only under the semantic key `companyHandle`, the fourth bound
value of the INSERT is `undefined` — while the returned row keys the
handle column under the semantic name `companyHandle` (and has no
snake_case key). -/
theorem jobCreate_reads_company_handle (o : JSObj) (v : JSVal) (nextId : Int) :
    (o.lookup "companyHandle" = some v → o.lookup "company_handle" = none →
      (jobCreateValues o).get? 3 = some JSVal.undefined ∧
      (jobCreate nextId o).lookup "companyHandle" = some JSVal.undefined) ∧
    (jobCreate nextId o).lookup "companyHandle" = some (jsGet o "company_handle") ∧
    (jobCreate nextId o).lookup "company_handle" = none := by
  refine ⟨?_, ?_, ?_⟩
  · intro _ h
    constructor
    · simp [jobCreateValues, jsGet, h]
    · simp [jobCreate, jsGet, h, List.lookup]
  · simp [jobCreate, List.lookup]
  · simp [jobCreate, List.lookup]

/-- An input object for `Job.create` that supplies the handle only under
the semantic key `companyHandle`. -/
def camelCreateInput : JSObj :=
  [("title", JSVal.str "t1"), ("salary", JSVal.num 100),
   ("equity", JSVal.str "0.1"), ("companyHandle", JSVal.str "c1")]

/-- Witness for C9 at a concrete input: with the handle supplied only as
`companyHandle`, the INSERT binds `undefined` for the handle column and
the returned row's `companyHandle` is `undefined`. -/
theorem jobCreate_reads_company_handle_witness :
    (jobCreateValues camelCreateInput).get? 3 = some JSVal.undefined ∧
    (jobCreate 7 camelCreateInput).lookup "companyHandle" = some JSVal.undefined :=
  (jobCreate_reads_company_handle camelCreateInput (JSVal.str "c1") 7).1
    (by decide) (by decide)

/-- C10: every row returned by `Job.findAll` corresponds to a jobs-table
row enriched, via the LEFT JOIN on the company handle, with a `name`
field holding the owning company's name — `none` (SQL NULL) when no
company row matches the handle. -/
theorem jobFindAll_left_join_name (cdb : List CompanyRow) (jdb : List JobRow)
    (sf : JobFilter) :
    ∀ r ∈ jobFindAll cdb jdb sf,
      (∃ j, j ∈ jdb ∧ r = jobToListRow cdb j) ∧
      r.name = (cdb.find? (fun c => c.handle == r.companyHandle)).map
        (fun c => c.name) := by
  intro r hr
  rcases hb : jobFindAllBuild sf with ⟨q, vals, preds⟩
  simp only [jobFindAll, hb] at hr
  obtain ⟨j, hj, -, rfl⟩ := mem_runJobQuery.mp hr
  exact ⟨⟨j, hj, rfl⟩, by simp [jobToListRow, joinCompanyName]⟩

/-- Witness for C10 at a concrete input: the `t1` job row comes back with
`name` equal to the `c1` company's name. -/
theorem jobFindAll_left_join_name_witness :
    (∃ j, j ∈ [t1Job] ∧ jobToListRow [c1Row] t1Job = jobToListRow [c1Row] j) ∧
    (jobToListRow [c1Row] t1Job).name =
      (List.find? (fun c => c.handle == (jobToListRow [c1Row] t1Job).companyHandle)
          [c1Row]).map (fun c => c.name) :=
  jobFindAll_left_join_name [c1Row] [t1Job] (JobFilter.mk none none .undefined)
    (jobToListRow [c1Row] t1Job)
    (by
      rw [show jobFindAll [c1Row] [t1Job] (JobFilter.mk none none .undefined) =
        [jobToListRow [c1Row] t1Job] from rfl]
      exact List.mem_singleton.mpr rfl)
